import Mathlib

set_option autoImplicit false

/-!
Shallow embedding of the webwin call-bridge and document-injection core
(`webwin.py`): the `insert_str` document injector, the `comment_html` /
`comment_js_file` script-tag disabling helpers, and the `WebWin` bridge
(`_bind_func`, `_expose_func`, `bind_func`, `bind_object`, the stub-buffer
template and its insertion marker), together with the wire encoding
(`json.loads` / `json.dumps`) the dispatch wrapper uses.

Python strings are modelled as `List Char` — sequences of Unicode code
points, matching Python's code-point based indexing, slicing and `len`.
`str.lower` is modelled per character by `Char.toLower` (exact on the ASCII
texts this program manipulates); where a claim must hold for arbitrary
lowering behaviour, the lowering function is an explicit parameter.
-/

abbrev Str := List Char

/-- Python `str.lower`, modelled as per-character lowering. -/
def lowerL (s : Str) : Str := s.map Char.toLower

/-- Python `str.find(sub)` restricted to found/not-found: the least index at
which `sub` occurs (`none` when absent; the Python original returns `-1`
then). -/
def strFind (s sub : Str) : Option Nat :=
  if sub.isPrefixOf s then some 0
  else
    match s with
    | [] => none
    | _ :: t => (strFind t sub).map (· + 1)

/-- Python `str.rfind(sub)`: the greatest index at which `sub` occurs. -/
def strRFind (s sub : Str) : Option Nat :=
  match s with
  | [] => if sub.isPrefixOf ([] : Str) then some 0 else none
  | _ :: t =>
    match strRFind t sub with
    | some i => some (i + 1)
    | none => if sub.isPrefixOf s then some 0 else none

/-- `pat` occurs in `s` at position `q`. -/
def occAt (s pat : Str) (q : Nat) : Bool := pat.isPrefixOf (s.drop q)

/-- The number of positions `q ≤ s.length` at which `pat` occurs in `s`
(overlapping occurrences counted). -/
def countOcc (s pat : Str) : Nat :=
  match s with
  | [] => if pat.isPrefixOf ([] : Str) then 1 else 0
  | _ :: t => (if pat.isPrefixOf s then 1 else 0) + countOcc t pat

/-- `insert_str` from `webwin.py`, with Python's `str.lower` abstracted into
the parameter `lower` (`insert_str` below instantiates it with `lowerL`).
The lowered page is searched for the lowered marker (`str.find` when
`forward`, `str.rfind` otherwise) and `ins` is spliced into the *original*
page at the resulting index — shifted by `len(where)` when inserting after
the marker.  Python's out-of-range slices clamp at the string ends exactly
as `List.take` / `List.drop` do. -/
def insert_str_gen (lower : Str → Str) (html ins whereS : Str)
    (forward : Bool) (before : Bool) : Str :=
  let p? := if forward then strFind (lower html) (lower whereS)
            else strRFind (lower html) (lower whereS)
  match p? with
  | none => html
  | some p =>
    let q := if before then p else p + whereS.length
    html.take q ++ ins ++ html.drop q

/-- `insert_str` with the concrete per-character lowering. -/
def insert_str (html ins whereS : Str) (forward : Bool) (before : Bool) : Str :=
  insert_str_gen lowerL html ins whereS forward before

/-! ### The wire encoding: JSON values, `json.dumps`, `json.loads` -/

/-- JSON values, on the integer fragment of JSON numbers (the program's
protocol does not depend on floats). Object members keep insertion order,
as Python dicts do. -/
inductive Json where
  | null
  | bool (b : Bool)
  | num (n : Int)
  | str (s : Str)
  | arr (elems : List Json)
  | obj (members : List (Str × Json))

/-- A Python exception, modelled as its class name and message. -/
structure PyExn where
  ty : Str
  msg : Str
deriving DecidableEq

/-- The apostrophe character (kept out of string literals). -/
def sqc : Char := Char.ofNat 39

/-- Python `repr` of a string: single-quoted (escaping of inner quotes is not
modelled; the messages this program produces contain none). -/
def pyStrRepr (s : Str) : Str := sqc :: (s ++ [sqc])

/-- Python `repr` of an exception: `TypeName('message')`. -/
def pyRepr (e : PyExn) : Str := e.ty ++ '(' :: (pyStrRepr e.msg ++ [')'])

def hexDigit (n : Nat) : Char :=
  if n < 10 then Char.ofNat (48 + n) else Char.ofNat (87 + n)

/-- `json.dumps` escaping of one character inside a string literal
(`ensure_ascii=False`): only `"`, `\` and control characters are escaped. -/
def escChar (c : Char) : Str :=
  if c = '"' then ['\\', '"']
  else if c = '\\' then ['\\', '\\']
  else if c = '\n' then ['\\', 'n']
  else if c = '\t' then ['\\', 't']
  else if c = '\r' then ['\\', 'r']
  else if c = Char.ofNat 8 then ['\\', 'b']
  else if c = Char.ofNat 12 then ['\\', 'f']
  else if c.toNat < 32 then
    ['\\', 'u', '0', '0', hexDigit (c.toNat / 16), hexDigit (c.toNat % 16)]
  else [c]

/-- `json.dumps` of a string (`ensure_ascii=False`). -/
def dumpStr (s : Str) : Str := '"' :: ((s.map escChar).flatten ++ ['"'])

def lbrace : Char := Char.ofNat 123
def rbrace : Char := Char.ofNat 125

mutual
/-- Python `json.dumps(..., ensure_ascii=False)` with the default
`", "` / `": "` separators. -/
def json_dumps : Json → Str
  | .null => "null".data
  | .bool true => "true".data
  | .bool false => "false".data
  | .num n => (toString n).data
  | .str s => dumpStr s
  | .arr xs => '[' :: (dumpsArr xs ++ [']'])
  | .obj kvs => lbrace :: (dumpsObj kvs ++ [rbrace])

def dumpsArr : List Json → Str
  | [] => []
  | [x] => json_dumps x
  | x :: xs => json_dumps x ++ ", ".data ++ dumpsArr xs

def dumpsObj : List (Str × Json) → Str
  | [] => []
  | [kv] => dumpStr kv.1 ++ ": ".data ++ json_dumps kv.2
  | kv :: kvs => dumpStr kv.1 ++ ": ".data ++ json_dumps kv.2 ++ ", ".data ++ dumpsObj kvs
end

def jsonWs (c : Char) : Bool := c = ' ' || c = '\t' || c = '\n' || c = '\r'

def skipWs : Str → Str
  | [] => []
  | c :: t => if jsonWs c then skipWs t else c :: t

def decodeErr (m : Str) : PyExn := ⟨"json.decoder.JSONDecodeError".data, m⟩

def expectingValue : PyExn := decodeErr "Expecting value".data

/-- One escape character inside a JSON string literal (`\uXXXX` escapes are
outside the modelled fragment). -/
def escDecode (e : Char) : Option Char :=
  if e = '"' then some '"'
  else if e = '\\' then some '\\'
  else if e = '/' then some '/'
  else if e = 'n' then some '\n'
  else if e = 't' then some '\t'
  else if e = 'r' then some '\r'
  else if e = 'b' then some (Char.ofNat 8)
  else if e = 'f' then some (Char.ofNat 12)
  else none

/-- JSON string-literal body parser: characters after the opening quote. -/
def parseStrLit : Str → Str → Except PyExn (Str × Str)
  | _, [] => .error (decodeErr "Unterminated string starting at".data)
  | acc, c :: t =>
    if c = '"' then .ok (acc.reverse, t)
    else if c = '\\' then
      match t with
      | [] => .error (decodeErr "Unterminated string starting at".data)
      | e :: t2 =>
        match escDecode e with
        | some d => parseStrLit (d :: acc) t2
        | none => .error (decodeErr "Invalid escape".data)
    else if c.toNat < 32 then .error (decodeErr "Invalid control character".data)
    else parseStrLit (c :: acc) t

def digitsToNat (ds : Str) : Nat := ds.foldl (fun a c => a * 10 + (c.toNat - 48)) 0

/-- JSON number parser, restricted to the integer fragment: an optional minus
sign and digits without a leading zero; a following `.`, `e` or `E` (a float)
is outside the modelled fragment and rejected. -/
def parseNum (s : Str) : Except PyExn (Json × Str) :=
  let (neg, s1) := match s with
    | '-' :: t => (true, t)
    | _ => (false, s)
  let ds := s1.takeWhile Char.isDigit
  let rest := s1.dropWhile Char.isDigit
  if ds.isEmpty then .error expectingValue
  else if 2 ≤ ds.length ∧ ds.head? = some '0' then .error expectingValue
  else
    match rest with
    | c :: _ =>
      if c = '.' || c = 'e' || c = 'E' then .error (decodeErr "float outside modelled fragment".data)
      else .ok (.num (if neg then -(digitsToNat ds : Int) else (digitsToNat ds : Int)), rest)
    | [] => .ok (.num (if neg then -(digitsToNat ds : Int) else (digitsToNat ds : Int)), rest)

mutual
/-- Recursive-descent JSON value parser (fuelled; `json_loads` supplies
ample fuel). -/
def parseVal : Nat → Str → Except PyExn (Json × Str)
  | 0, _ => .error (decodeErr "out of fuel".data)
  | fuel + 1, s0 =>
    let s := skipWs s0
    match s with
    | [] => .error expectingValue
    | c :: t =>
      if c = 'n' then
        if "null".data.isPrefixOf s then .ok (.null, s.drop 4) else .error expectingValue
      else if c = 't' then
        if "true".data.isPrefixOf s then .ok (.bool true, s.drop 4) else .error expectingValue
      else if c = 'f' then
        if "false".data.isPrefixOf s then .ok (.bool false, s.drop 5) else .error expectingValue
      else if c = '"' then
        match parseStrLit [] t with
        | .ok (str, rest) => .ok (.str str, rest)
        | .error e => .error e
      else if c = '[' then
        match skipWs t with
        | ']' :: r => .ok (.arr [], r)
        | r =>
          match parseItems fuel r with
          | .ok (xs, rest) => .ok (.arr xs, rest)
          | .error e => .error e
      else if c = lbrace then
        let r := skipWs t
        if r.head? = some rbrace then .ok (.obj [], r.tail)
        else
          match parseMembers fuel r with
          | .ok (kvs, rest) => .ok (.obj kvs, rest)
          | .error e => .error e
      else if c = '-' || c.isDigit then parseNum s
      else .error expectingValue

/-- JSON array items after the opening bracket (at least one item). -/
def parseItems : Nat → Str → Except PyExn (List Json × Str)
  | 0, _ => .error (decodeErr "out of fuel".data)
  | fuel + 1, s =>
    match parseVal fuel s with
    | .error e => .error e
    | .ok (v, rest) =>
      match skipWs rest with
      | ',' :: r2 =>
        match parseItems fuel r2 with
        | .ok (vs, r3) => .ok (v :: vs, r3)
        | .error e => .error e
      | ']' :: r2 => .ok ([v], r2)
      | _ => .error (decodeErr "Expecting comma delimiter".data)

/-- JSON object members after the opening brace (at least one member). -/
def parseMembers : Nat → Str → Except PyExn (List (Str × Json) × Str)
  | 0, _ => .error (decodeErr "out of fuel".data)
  | fuel + 1, s =>
    match skipWs s with
    | '"' :: t =>
      match parseStrLit [] t with
      | .error e => .error e
      | .ok (k, r1) =>
        match skipWs r1 with
        | ':' :: r2 =>
          match parseVal fuel r2 with
          | .error e => .error e
          | .ok (v, r3) =>
            match skipWs r3 with
            | ',' :: r4 =>
              match parseMembers fuel r4 with
              | .ok (kvs, r5) => .ok ((k, v) :: kvs, r5)
              | .error e => .error e
            | c :: r4 =>
              if c = rbrace then .ok ([(k, v)], r4)
              else .error (decodeErr "Expecting comma delimiter".data)
            | [] => .error (decodeErr "Expecting comma delimiter".data)
        | _ => .error (decodeErr "Expecting colon delimiter".data)
    | _ => .error (decodeErr "Expecting property name".data)
end

/-- Python `json.loads` on the modelled JSON fragment (whole input must be
consumed, up to trailing whitespace). -/
def json_loads (s : Str) : Except PyExn Json :=
  match parseVal (2 * s.length + 2) s with
  | .error e => .error e
  | .ok (v, rest) =>
    if (skipWs rest).isEmpty then .ok v else .error (decodeErr "Extra data".data)

/-! ### The dispatch wrapper (`WebWin._bind_func`) -/

/-- The result of a Python callable: either a JSON-serialisable value or an
object `json.dumps` cannot encode (carrying its type name). -/
inductive PyObj where
  | json (v : Json)
  | raw (tyname : Str)

/-- Python star-unpacking `f(*args)` applied to a decoded JSON value: lists
unpack to their elements, strings iterate as 1-character strings, dicts
iterate over their keys; numbers, booleans and `None` are not iterable and
raise `TypeError`. -/
def starArgs : Json → Except PyExn (List Json)
  | .arr xs => .ok xs
  | .str s => .ok (s.map (fun c => .str [c]))
  | .obj kvs => .ok (kvs.map (fun kv => .str kv.1))
  | _ => .error ⟨"TypeError".data, "argument after * must be an iterable".data⟩

/-- The `succ` response envelope `json.dumps({'status': 'succ', 'retval': v},
ensure_ascii=False)` (Python dicts keep insertion order). -/
def mkSucc (v : Json) : Str :=
  json_dumps (.obj [("status".data, .str "succ".data), ("retval".data, v)])

/-- The `fail` response envelope `json.dumps({'status': 'fail', 'msg': m},
ensure_ascii=False)`. -/
def mkFail (m : Str) : Str :=
  json_dumps (.obj [("status".data, .str "fail".data), ("msg".data, .str m)])

/-- The `wrapper` closure `WebWin._bind_func` installs, applied to the string
payload the channel delivers.  Mirroring the source line by line:
`args = json.loads(args_j) if args_j else []` runs *outside* the `try`
block, so a decode exception propagates out of the handler (the
`Except.error` case); the star-unpacking, the call itself and the encoding
of the result run inside the `try` and any exception there is converted to
a `fail` envelope carrying `repr(ex)`. -/
def wrapper (call : List Json → Except PyExn PyObj) (payload : Str) :
    Except PyExn Str :=
  match (if payload.isEmpty then .ok (Json.arr []) else json_loads payload) with
  | .error e => .error e
  | .ok args =>
    .ok (match starArgs args with
      | .error e => mkFail (pyRepr e)
      | .ok l =>
        match call l with
        | .error e => mkFail (pyRepr e)
        | .ok (.json v) => mkSucc v
        | .ok (.raw tyname) =>
          mkFail (pyRepr ⟨"TypeError".data,
            "Object of type ".data ++ tyname ++ " is not JSON serializable".data⟩))

/-! ### The bridge state: channel bindings and the stub buffer -/

/-- A Python function as the bridge sees it: its `__name__`, `__doc__`, and
its behaviour on positional JSON arguments.  A `PyFunc` is always callable,
so the `TypeError` branch of `bind_func` for non-callables is unreachable in
the model. -/
structure PyFunc where
  name : Str
  doc : Option Str
  call : List Json → Except PyExn PyObj

/-- Modelled from the spec: the rendering-surface channel's `bind(name,
handler)` table (the `webui` collaborator is outside this repository; §6
of the spec gives its contract, and §3/§4.1 require last-writer-wins
replacement).  Binding an existing name replaces its handler in place; a
new name is appended. -/
def bindSet {α : Type} : List (Str × α) → Str → α → List (Str × α)
  | [], n, h => [(n, h)]
  | (k, v) :: t, n, h => if k = n then (n, h) :: t else (k, v) :: bindSet t n h

/-- Lookup in the channel binding table. -/
def bindGet {α : Type} : List (Str × α) → Str → Option α
  | [], _ => none
  | (k, v) :: t, n => if k = n then some v else bindGet t n

/-- How many bindings a name has in the table. -/
def countKey {α : Type} (l : List (Str × α)) (n : Str) : Nat :=
  l.countP (fun p => p.1 == n)

/-- The bridge-instance state the claims are about: the channel's handler
table and the stub buffer `webwin_js`. -/
structure WebWinState where
  bindings : List (Str × (Str → Except PyExn Str))
  webwin_js : Str

/-- `WebWin.WEBWIN_JS_TEMPLATE`, transcribed character for character
(literal braces written with escapes). -/
def WEBWIN_JS_TEMPLATE : Str :=
  ("\n/**\n* WebWin js\n*\n*/\nvar webwin = \x7b\nasync _call_(fname, ...args) \x7b\n    try \x7b\n        let ret = JSON.parse(await webui.call(fname, JSON.stringify(args)));\n        if (ret.status == \"succ\") \x7b return ret.retval; \x7d\n        else \x7b throw Error(\"Backend-Error: \" + ret.msg); \x7d\n    \x7d catch (e) \x7b\n        // console.log(e);\n        throw e;\n    \x7d\n\x7d,\n/* Back-end exported objects and functions */\n\n/*_WEBWIN_EXPOSE_END_*/\n\x7d;\nconsole.log(").data
  ++ sqc :: ("webwin.js loaded.").data ++ sqc :: (");\n").data

/-- `WebWin.WEBEIN_JS_EXPOSE_END`, the stub-buffer insertion marker. -/
def WEBEIN_JS_EXPOSE_END : Str := "/*_WEBWIN_EXPOSE_END_*/".data

/-- The lowered marker, as `insert_str`'s case-insensitive search sees it. -/
def markerL : Str := lowerL WEBEIN_JS_EXPOSE_END

/-- `WebWin._webwin_js_expose` on the buffer, with the default `end='\n'`
every caller uses: insert `js_str + '\n'` at the marker (backward search,
before the marker). -/
def webwin_js_expose (buf js_str : Str) : Str :=
  insert_str buf (js_str ++ ['\n']) WEBEIN_JS_EXPOSE_END false true

/-- The dispatch handler `_bind_func` builds for a function. -/
def bindWrapper (f : PyFunc) : Str → Except PyExn Str := wrapper f.call

/-- `WebWin._bind_func`: installs the dispatch wrapper on the channel under
`bindname`. -/
def _bind_func (st : WebWinState) (f : PyFunc) (bindname : Str) : WebWinState :=
  { st with bindings := bindSet st.bindings bindname (bindWrapper f) }

/-- The stub text `WebWin._expose_func` builds: an optional doc-comment block
(Python's `if f.__doc__` treats an empty docstring as absent), then an async
forwarder named `jsname or bindname` that calls `webwin._call_` keyed by
`bindname`. -/
def stubText (f : PyFunc) (bindname jsname : Str) : Str :=
  let docstring := match f.doc with
    | some d => if d = [] then [] else "/*\n".data ++ d ++ "\n */".data
    | none => []
  docstring ++ "\nasync ".data ++ (if jsname = [] then bindname else jsname) ++
    "(...args) \x7b\n    return await webwin._call_(\"".data ++ bindname ++
    "\", ...args);\n\x7d,".data

/-- `WebWin._expose_func`: appends the stub text to the stub buffer (the
`print` to stdout is not modelled). -/
def _expose_func (st : WebWinState) (f : PyFunc) (bindname jsname : Str) : WebWinState :=
  { st with webwin_js := webwin_js_expose st.webwin_js (stubText f bindname jsname) }

/-- `WebWin.bind_func`: resolve the default name from `func.__name__`, bind
the dispatch wrapper, then append the stub. -/
def bind_func (st : WebWinState) (func : PyFunc) (bindname : Str) : WebWinState :=
  let bn := if bindname = [] then func.name else bindname
  _expose_func (_bind_func st func bn) func bn []

/-- The bridge-relevant state `WebWin.__init__` builds: an empty binding
table, the stub-buffer template, and the `_version_` line exposed into it. -/
def initWebWin : WebWinState :=
  { bindings := [],
    webwin_js := webwin_js_expose WEBWIN_JS_TEMPLATE ("_version_: \"0.2.1\",".data) }

/-! ### Objects and `bind_object` -/

/-- One attribute of a Python instance, as `inspect` classifies it: a bound
method (`inspect.ismethod` true), a callable attribute that is *not* a bound
method (a function stored on the instance, a static method, a callable
object, ...), or a non-callable attribute. -/
inductive PyAttr where
  | method (f : PyFunc)
  | callableAttr (f : PyFunc)
  | plain

/-- A Python instance as `bind_object` sees it: its class name and its
attributes. -/
structure PyObject where
  className : Str
  attrs : List (Str × PyAttr)

/-- Lexicographic comparison of strings by code point (Python `<=` on `str`),
as `sorted` / `inspect.getmembers` order names. -/
def strLe : Str → Str → Bool
  | [], _ => true
  | _ :: _, [] => false
  | a :: s, b :: t => if a = b then strLe s t else decide (a < b)

/-- `inspect.getmembers(obj, predicate)` with `bind_object`'s predicate:
attributes sorted by name, keeping bound methods whose function `__name__`
does not start with an underscore (note the source tests `x.__name__`, not
the attribute name). -/
def pubMethods (obj : PyObject) : List (Str × PyFunc) :=
  (List.insertionSort (fun p q : Str × PyAttr => strLe p.1 q.1 = true) obj.attrs).filterMap
    (fun p =>
      match p.2 with
      | .method f => if ['_'].isPrefixOf f.name then none else some (p.1, f)
      | _ => none)

/-- `WebWin.bind_object`: resolve the alias (default: the lower-cased class
name), open a namespace block in the stub buffer, bind and expose each
public method under `alias.method`, close the block. -/
def bind_object (st : WebWinState) (obj : PyObject) (bindname : Str) : WebWinState :=
  let bn := if bindname = [] then lowerL obj.className else bindname
  let st1 := { st with webwin_js := webwin_js_expose st.webwin_js (bn ++ ": \x7b".data) }
  let st2 := (pubMethods obj).foldl
    (fun s m =>
      let funcbindname := bn ++ '.' :: m.1
      _expose_func (_bind_func s m.2 funcbindname) m.2 funcbindname m.1)
    st1
  { st2 with webwin_js := webwin_js_expose st2.webwin_js ("\x7d,".data) }

/-! ### `comment_html` / `comment_js_file`

`comment_js_file` builds the regex `<script\s+.+js_file["']>\s*</script>`
(the dot-escaped `js_file` is a literal) and `comment_html` wraps each
`re.finditer` match in `<!-- ... -->`.  The matcher below implements exactly
this pattern with Python's `re.IGNORECASE` and backtracking (greedy)
preference order.  `re.finditer` was created on the page *before* the loop
in `comment_html` rebinds `html`, so the match positions always refer to the
original page while the slicing applies to the mutated one. -/

/-- Python `\s` on the ASCII range. -/
def isWsC (c : Char) : Bool :=
  c = ' ' || c = '\t' || c = '\n' || c = '\r' || c = Char.ofNat 11 || c = Char.ofNat 12

/-- Case-insensitive literal prefix match (`re.IGNORECASE`). -/
def ciPrefix (pat s : Str) : Bool := (lowerL pat).isPrefixOf (lowerL s)

def countLeading (p : Char → Bool) (s : Str) : Nat := (s.takeWhile p).length

/-- The literal `</script>` closing the pattern. -/
def matchCloseTag (s : Str) : Option Nat :=
  if ciPrefix "</script>".data s then some 9 else none

/-- Greedy `\s*` then `</script>`: try the longest whitespace run first,
counting `r` down to 0. -/
def wsStarClose (s : Str) : Nat → Option Nat
  | 0 => matchCloseTag s
  | r + 1 =>
    match matchCloseTag (s.drop (r + 1)) with
    | some k => some (r + 1 + k)
    | none => wsStarClose s r

/-- The pattern tail after `.+`: the literal `js_file`, one of `"` or `'`,
`>`, then greedy `\s*` and `</script>`.  Returns the consumed length. -/
def tailMatch (jsfile s : Str) : Option Nat :=
  if ciPrefix jsfile s then
    match s.drop jsfile.length with
    | q :: rest =>
      if q = '"' || q = sqc then
        match rest with
        | g :: rest2 =>
          if g = '>' then
            (wsStarClose rest2 (countLeading isWsC rest2)).map
              (fun k => jsfile.length + 2 + k)
          else none
        | [] => none
      else none
    | [] => none
  else none

/-- Greedy `.+` before the tail: `j` counts down from the newline-free run
length to 1 (`.` does not match a newline). -/
def dotPlusTail (jsfile s : Str) : Nat → Option Nat
  | 0 => none
  | j + 1 =>
    match tailMatch jsfile (s.drop (j + 1)) with
    | some k => some (j + 1 + k)
    | none => dotPlusTail jsfile s j

/-- Greedy `\s+` before `.+`: `k` counts down from the whitespace run length
to 1. -/
def wsPlusTail (jsfile s : Str) : Nat → Option Nat
  | 0 => none
  | k + 1 =>
    match dotPlusTail jsfile (s.drop (k + 1))
        (countLeading (fun c => c ≠ '\n') (s.drop (k + 1))) with
    | some r => some (k + 1 + r)
    | none => wsPlusTail jsfile s k

/-- One attempt of `<script\s+.+js_file["']>\s*</script>` at the start of
`s`; returns the match length under Python's greedy preference order. -/
def matchAt (jsfile s : Str) : Option Nat :=
  if ciPrefix "<script".data s then
    (wsPlusTail jsfile (s.drop 7) (countLeading isWsC (s.drop 7))).map (fun r => 7 + r)
  else none

/-- `re.finditer`: scan left to right, emitting non-overlapping matches and
resuming after each match's end (every match of this pattern is non-empty). -/
def finditerAux (jsfile : Str) : Nat → Str → Nat → List (Nat × Nat)
  | 0, _, _ => []
  | _, [], _ => []
  | fuel + 1, s@(_ :: t), pos =>
    match matchAt jsfile s with
    | some len => (pos, pos + len) :: finditerAux jsfile fuel (s.drop len) (pos + len)
    | none => finditerAux jsfile fuel t (pos + 1)

/-- All matches of the constructed pattern in `html`, with their
`(start, end)` positions in `html`. -/
def finditer (jsfile html : Str) : List (Nat × Nat) :=
  finditerAux jsfile html.length html 0

/-- `comment_html`: fold the match list over the page, wrapping the slice
`h[start:end]` of the *current* page in `<!-- ... -->` at positions that
were computed on the *original* page (the source iterates the lazy
`re.finditer` of the original string while rebinding `html`). -/
def comment_html (html : Str) (ms : List (Nat × Nat)) : Str :=
  ms.foldl
    (fun h se =>
      h.take se.1 ++ "<!-- ".data ++ ((h.drop se.1).take (se.2 - se.1))
        ++ " -->".data ++ h.drop se.2)
    html

/-- `comment_js_file`: comment out every statement loading `js_file`. -/
def comment_js_file (html jsfile : Str) : Str :=
  comment_html html (finditer jsfile html)


/-- Concatenation of stub texts the way successive buffer insertions lay
them out: each text followed by the `'\n'` that `_webwin_js_expose`
appends. -/
def joinNl : List Str → Str
  | [] => []
  | t :: ts => t ++ '\n' :: joinNl ts

/-! ## Lemmas about the search primitives -/

theorem occAt_zero (s pat : Str) : occAt s pat 0 = pat.isPrefixOf s := rfl

theorem occAt_cons_succ (c : Char) (t pat : Str) (q : Nat) :
    occAt (c :: t) pat (q + 1) = occAt t pat q := rfl

theorem occAt_nil (pat : Str) (q : Nat) : occAt ([] : Str) pat q = pat.isPrefixOf [] := by
  cases q <;> rfl

theorem isPrefixOf_nil_false {pat : Str} (h : pat ≠ []) : pat.isPrefixOf ([] : Str) = false := by
  cases pat with
  | nil => exact absurd rfl h
  | cons a as => rfl

theorem strFind_eq_some_of {s pat : Str} {p : Nat}
    (h1 : occAt s pat p = true) (h2 : ∀ q, q < p → occAt s pat q = false) :
    strFind s pat = some p := by
  induction s generalizing p with
  | nil =>
    have hp0 : p = 0 := by
      by_contra hne
      have h0 : occAt ([] : Str) pat 0 = false := h2 0 (Nat.pos_of_ne_zero hne)
      rw [occAt_nil] at h0 h1
      rw [h1] at h0
      exact Bool.noConfusion h0
    subst hp0
    rw [occAt_zero] at h1
    simp [strFind, h1]
  | cons c t ih =>
    cases p with
    | zero =>
      rw [occAt_zero] at h1
      simp [strFind, h1]
    | succ q =>
      have h0 : pat.isPrefixOf (c :: t) = false := by
        have := h2 0 (Nat.succ_pos q)
        rwa [occAt_zero] at this
      have ht : strFind t pat = some q := by
        apply ih
        · rwa [← occAt_cons_succ c]
        · intro r hr
          have := h2 (r + 1) (Nat.succ_lt_succ hr)
          rwa [occAt_cons_succ] at this
      simp [strFind, h0, ht]

theorem strFind_eq_none_of {s pat : Str}
    (h : ∀ q, q ≤ s.length → occAt s pat q = false) :
    strFind s pat = none := by
  induction s with
  | nil =>
    have h0 := h 0 (Nat.le_refl 0)
    rw [occAt_zero] at h0
    simp [strFind, h0]
  | cons c t ih =>
    have h0 := h 0 (Nat.zero_le _)
    rw [occAt_zero] at h0
    have ht : strFind t pat = none := by
      apply ih
      intro q hq
      have := h (q + 1) (by simpa using Nat.succ_le_succ hq)
      rwa [occAt_cons_succ] at this
    simp [strFind, h0, ht]

theorem strRFind_eq_none_of {s pat : Str}
    (h : ∀ q, q ≤ s.length → occAt s pat q = false) :
    strRFind s pat = none := by
  induction s with
  | nil =>
    have h0 := h 0 (Nat.le_refl 0)
    rw [occAt_zero] at h0
    simp [strRFind, h0]
  | cons c t ih =>
    have h0 := h 0 (Nat.zero_le _)
    rw [occAt_zero] at h0
    have ht : strRFind t pat = none := by
      apply ih
      intro q hq
      have := h (q + 1) (by simpa using Nat.succ_le_succ hq)
      rwa [occAt_cons_succ] at this
    simp [strRFind, h0, ht]

theorem strRFind_eq_some_of {s pat : Str} {p : Nat} (hp : p ≤ s.length)
    (h1 : occAt s pat p = true)
    (h2 : ∀ q, p < q → q ≤ s.length → occAt s pat q = false) :
    strRFind s pat = some p := by
  induction s generalizing p with
  | nil =>
    have hp0 : p = 0 := Nat.le_zero.mp hp
    subst hp0
    rw [occAt_zero] at h1
    simp [strRFind, h1]
  | cons c t ih =>
    cases p with
    | zero =>
      have ht : strRFind t pat = none := by
        apply strRFind_eq_none_of
        intro q hq
        have := h2 (q + 1) (Nat.succ_pos q) (by simpa using Nat.succ_le_succ hq)
        rwa [occAt_cons_succ] at this
      rw [occAt_zero] at h1
      simp [strRFind, ht, h1]
    | succ q =>
      have ht : strRFind t pat = some q := by
        apply ih
        · exact Nat.le_of_succ_le_succ hp
        · rwa [← occAt_cons_succ c]
        · intro r hr hrle
          have := h2 (r + 1) (Nat.succ_lt_succ hr) (by simpa using Nat.succ_le_succ hrle)
          rwa [occAt_cons_succ] at this
      simp [strRFind, ht]

/-! ## Lemmas about occurrence counting -/

theorem countOcc_nil {pat : Str} (h : pat ≠ []) : countOcc [] pat = 0 := by
  simp [countOcc, isPrefixOf_nil_false h]

theorem countOcc_cons (c : Char) (t pat : Str) :
    countOcc (c :: t) pat = (if pat.isPrefixOf (c :: t) then 1 else 0) + countOcc t pat := rfl

theorem countOcc_zero {s pat : Str} (hpat : pat ≠ []) (h : countOcc s pat = 0) :
    ∀ q, occAt s pat q = false := by
  induction s with
  | nil =>
    intro q
    rw [occAt_nil, isPrefixOf_nil_false hpat]
  | cons c t ih =>
    rw [countOcc_cons] at h
    have h1 : pat.isPrefixOf (c :: t) = false := by
      by_contra hb
      rw [Bool.not_eq_false] at hb
      simp [hb] at h
    have h2 : countOcc t pat = 0 := by omega
    intro q
    cases q with
    | zero => rw [occAt_zero, h1]
    | succ r => rw [occAt_cons_succ]; exact ih h2 r

theorem length_le_of_isPrefixOf {pat s : Str} (h : pat.isPrefixOf s = true) :
    pat.length ≤ s.length :=
  (List.isPrefixOf_iff_prefix.mp h).length_le

theorem countOcc_short {s pat : Str} (h : s.length < pat.length) : countOcc s pat = 0 := by
  induction s with
  | nil =>
    apply countOcc_nil
    intro he
    subst he
    simp at h
  | cons c t ih =>
    rw [countOcc_cons]
    have h1 : pat.isPrefixOf (c :: t) = false := by
      by_contra hb
      rw [Bool.not_eq_false] at hb
      exact absurd (length_le_of_isPrefixOf hb) (by omega)
    rw [h1, ih (by simpa using Nat.lt_of_succ_lt h)]
    simp

theorem countOcc_self {pat : Str} (h : pat ≠ []) : countOcc pat pat = 1 := by
  cases pat with
  | nil => exact absurd rfl h
  | cons c t =>
    rw [countOcc_cons]
    have h1 : (c :: t).isPrefixOf (c :: t) = true :=
      List.isPrefixOf_iff_prefix.mpr (List.prefix_refl _)
    rw [h1, countOcc_short (by simp)]
    simp

theorem isPrefixOf_append_of_length_le {pat X Y : Str} (h : pat.length ≤ X.length) :
    pat.isPrefixOf (X ++ Y) = pat.isPrefixOf X := by
  rcases hb : pat.isPrefixOf X with _ | _
  · by_contra hc
    rw [Bool.not_eq_false] at hc
    have := List.prefix_iff_eq_take.mp (List.isPrefixOf_iff_prefix.mp hc)
    rw [List.take_append_of_le_length h] at this
    have : pat.isPrefixOf X = true :=
      List.isPrefixOf_iff_prefix.mpr (List.prefix_iff_eq_take.mpr this)
    rw [this] at hb
    exact Bool.noConfusion hb
  · apply List.isPrefixOf_iff_prefix.mpr
    exact (List.isPrefixOf_iff_prefix.mp hb).trans (List.prefix_append X Y)

theorem mem_of_isPrefixOf_append_cons {pat X Y : Str} {c : Char}
    (h : pat.isPrefixOf (X ++ c :: Y) = true) (hlen : X.length < pat.length) :
    c ∈ pat := by
  have hpe := List.prefix_iff_eq_take.mp (List.isPrefixOf_iff_prefix.mp h)
  obtain ⟨k, hk⟩ : ∃ k, pat.length - X.length = k + 1 :=
    ⟨pat.length - X.length - 1, by omega⟩
  rw [List.take_append_eq_append_take, List.take_of_length_le (by omega), hk,
    List.take_succ_cons] at hpe
  rw [hpe]
  exact List.mem_append_right _ (List.mem_cons_self c _)

theorem head_eq_of_isPrefixOf_cons {p0 c : Char} {pt Y : Str}
    (h : (p0 :: pt).isPrefixOf (c :: Y) = true) : p0 = c := by
  simp [List.isPrefixOf] at h
  exact h.1

/-- Separator split for occurrence counts: a character absent from the
pattern cuts the string into independent halves. -/
theorem countOcc_append_cons {pat : Str} (c : Char) (X Y : Str)
    (hpat : pat ≠ []) (hc : c ∉ pat) :
    countOcc (X ++ c :: Y) pat = countOcc X pat + countOcc (c :: Y) pat := by
  induction X with
  | nil => simp [countOcc_nil hpat]
  | cons x X' ih =>
    rw [List.cons_append, countOcc_cons, countOcc_cons x X' pat, ih]
    have hind : pat.isPrefixOf (x :: (X' ++ c :: Y)) = pat.isPrefixOf (x :: X') := by
      rcases Nat.lt_or_ge (x :: X').length pat.length with hlt | hge
      · have h1 : pat.isPrefixOf (x :: X') = false := by
          by_contra hb
          rw [Bool.not_eq_false] at hb
          exact absurd (length_le_of_isPrefixOf hb) (by omega)
        have h2 : pat.isPrefixOf (x :: (X' ++ c :: Y)) = false := by
          by_contra hb
          rw [Bool.not_eq_false] at hb
          have hb2 : pat.isPrefixOf ((x :: X') ++ c :: Y) = true := by
            rw [List.cons_append]
            exact hb
          exact hc (mem_of_isPrefixOf_append_cons hb2 hlt)
        rw [h1, h2]
      · rw [← List.cons_append, isPrefixOf_append_of_length_le hge]
    rw [hind]
    omega

/-- Pointwise separator split: an occurrence in `X ++ c :: Y` with `c`
absent from the pattern lies entirely inside `X` or entirely inside `Y`. -/
theorem occAt_append_cons {pat : Str} {c : Char} {X Y : Str} {q : Nat}
    (hpat : pat ≠ []) (hc : c ∉ pat) (h : occAt (X ++ c :: Y) pat q = true) :
    (q + pat.length ≤ X.length ∧ occAt X pat q = true) ∨
      (X.length < q ∧ occAt Y pat (q - X.length - 1) = true) := by
  induction X generalizing q with
  | nil =>
    cases q with
    | zero =>
      rw [occAt_zero] at h
      cases pat with
      | nil => exact absurd rfl hpat
      | cons p0 pt =>
        have : p0 = c := head_eq_of_isPrefixOf_cons (by simpa using h)
        subst this
        exact absurd (List.mem_cons_self p0 pt) hc
    | succ r =>
      right
      constructor
      · simp
      · simpa using h
  | cons x X' ih =>
    cases q with
    | zero =>
      rw [occAt_zero] at h
      rcases Nat.lt_or_ge (x :: X').length pat.length with hlt | hge
      · have : c ∈ pat :=
          mem_of_isPrefixOf_append_cons (by simpa using h) hlt
        exact absurd this hc
      · left
        constructor
        · simpa using hge
        · have heq : pat.isPrefixOf ((x :: X') ++ c :: Y) = pat.isPrefixOf (x :: X') :=
            isPrefixOf_append_of_length_le hge
          rw [occAt_zero, ← heq]
          simpa using h
    | succ r =>
      rw [List.cons_append, occAt_cons_succ] at h
      rcases ih h with ⟨h1, h2⟩ | ⟨h1, h2⟩
      · left
        constructor
        · simp only [List.length_cons]
          omega
        · rwa [occAt_cons_succ]
      · right
        constructor
        · simp only [List.length_cons]
          omega
        · have heq : r + 1 - (x :: X').length - 1 = r - X'.length - 1 := by
            simp only [List.length_cons]
            omega
          rwa [heq]

/-- An occurrence head check: a pattern starting with a different character
than the string contributes nothing at position 0. -/
theorem countOcc_cons_head_ne {p0 c : Char} {pt Y : Str} (hne : p0 ≠ c) :
    countOcc (c :: Y) (p0 :: pt) = countOcc Y (p0 :: pt) := by
  rw [countOcc_cons]
  have h1 : (p0 :: pt).isPrefixOf (c :: Y) = false := by
    by_contra hb
    rw [Bool.not_eq_false] at hb
    exact hne (head_eq_of_isPrefixOf_cons hb)
  rw [h1]
  simp

/-! ## The stub buffer: insertion happens at the terminal marker -/

theorem markerL_ne_nil : markerL ≠ [] := by decide

theorem newline_not_mem_markerL : '\n' ∉ markerL := by decide

theorem lowerL_append (a b : Str) : lowerL (a ++ b) = lowerL a ++ lowerL b := by
  simp [lowerL]

theorem lowerL_cons (c : Char) (t : Str) : lowerL (c :: t) = c.toLower :: lowerL t := rfl

theorem lowerL_length (s : Str) : (lowerL s).length = s.length := by simp [lowerL]

/-- In a buffer of the shape `B ++ marker ++ '\n' ++ T₀` with a marker-free
tail, the backward case-insensitive search of `_webwin_js_expose` lands on
that terminal marker, whatever `B` contains. -/
theorem rfind_marker (B Mstr T₀ : Str)
    (hm : lowerL Mstr = markerL)
    (hT : countOcc (lowerL T₀) markerL = 0) :
    strRFind (lowerL (B ++ Mstr ++ '\n' :: T₀)) markerL = some B.length := by
  have hbuf : lowerL (B ++ Mstr ++ '\n' :: T₀)
      = lowerL B ++ markerL ++ '\n' :: lowerL T₀ := by
    rw [lowerL_append, lowerL_append, hm, lowerL_cons]
    rfl
  rw [hbuf]
  have hB : B.length = (lowerL B).length := (lowerL_length B).symm
  rw [hB]
  apply strRFind_eq_some_of
  · simp
  · unfold occAt
    rw [List.append_assoc, List.drop_left]
    exact List.isPrefixOf_iff_prefix.mpr (List.prefix_append _ _)
  · intro q hq hqle
    by_contra hb
    rw [Bool.not_eq_false] at hb
    rcases occAt_append_cons markerL_ne_nil newline_not_mem_markerL hb with ⟨h1, _⟩ | ⟨_, h2⟩
    · rw [List.length_append] at h1
      omega
    · exact absurd h2 (by rw [countOcc_zero markerL_ne_nil hT]; simp)

/-- `_webwin_js_expose` on a buffer of the invariant shape splices the stub
text (plus its newline) immediately before the terminal marker and leaves
everything else — in particular the marker and the fixed tail — intact. -/
theorem expose_at_marker (B Mstr T₀ s : Str)
    (hm : lowerL Mstr = markerL)
    (hT : countOcc (lowerL T₀) markerL = 0) :
    webwin_js_expose (B ++ Mstr ++ '\n' :: T₀) s
      = B ++ (s ++ ['\n']) ++ Mstr ++ '\n' :: T₀ := by
  have hfind := rfind_marker B Mstr T₀ hm hT
  have hmk : lowerL WEBEIN_JS_EXPOSE_END = markerL := rfl
  unfold webwin_js_expose insert_str insert_str_gen
  rw [if_neg (by simp), hmk, hfind]
  simp only [if_true]
  have ht : List.take B.length (B ++ Mstr ++ '\n' :: T₀) = B := by
    rw [List.append_assoc, List.take_left]
  have hd : List.drop B.length (B ++ Mstr ++ '\n' :: T₀) = Mstr ++ '\n' :: T₀ := by
    rw [List.append_assoc, List.drop_left]
  rw [ht, hd]
  simp [List.append_assoc]

/-- Iterated exposure: stub texts land before the marker in call order. -/
theorem expose_foldl (texts : List Str) (B Mstr T₀ : Str)
    (hm : lowerL Mstr = markerL)
    (hT : countOcc (lowerL T₀) markerL = 0) :
    texts.foldl webwin_js_expose (B ++ Mstr ++ '\n' :: T₀)
      = B ++ joinNl texts ++ Mstr ++ '\n' :: T₀ := by
  induction texts generalizing B with
  | nil => simp [joinNl]
  | cons t ts ih =>
    rw [List.foldl_cons, expose_at_marker B Mstr T₀ t hm hT, ih (B ++ (t ++ ['\n']))]
    simp [joinNl, List.append_assoc]

theorem countOcc_cons_of_ne_head {pat : Str} {c : Char} (Y : Str)
    (hpat : pat ≠ []) (h : pat.head? ≠ some c) :
    countOcc (c :: Y) pat = countOcc Y pat := by
  cases pat with
  | nil => exact absurd rfl hpat
  | cons p0 pt =>
    rw [countOcc_cons]
    have h1 : (p0 :: pt).isPrefixOf (c :: Y) = false := by
      by_contra hb
      rw [Bool.not_eq_false] at hb
      exact h (by rw [head_eq_of_isPrefixOf_cons hb]; rfl)
    rw [h1]
    simp

theorem markerL_head : markerL.head? ≠ some '\n' := by decide

/-- A buffer laid out as content, stub text and tail, each newline-separated
and marker-free, contains the marker exactly once. -/
theorem countOcc_marker_buffer (A S T₀ : Str)
    (hA : countOcc A markerL = 0) (hS : countOcc S markerL = 0)
    (hT : countOcc T₀ markerL = 0) :
    countOcc (A ++ '\n' :: (S ++ '\n' :: (markerL ++ '\n' :: T₀))) markerL = 1 := by
  rw [countOcc_append_cons '\n' A _ markerL_ne_nil newline_not_mem_markerL, hA,
    countOcc_cons_of_ne_head _ markerL_ne_nil markerL_head,
    countOcc_append_cons '\n' S _ markerL_ne_nil newline_not_mem_markerL, hS,
    countOcc_cons_of_ne_head _ markerL_ne_nil markerL_head,
    countOcc_append_cons '\n' markerL _ markerL_ne_nil newline_not_mem_markerL,
    countOcc_self markerL_ne_nil,
    countOcc_cons_of_ne_head _ markerL_ne_nil markerL_head, hT]

/-! ## Lemmas about the channel binding table -/

theorem bindGet_bindSet_self {α : Type} (l : List (Str × α)) (n : Str) (h : α) :
    bindGet (bindSet l n h) n = some h := by
  induction l with
  | nil => simp [bindSet, bindGet]
  | cons kv t ih =>
    obtain ⟨k, v⟩ := kv
    by_cases hk : k = n
    · simp [bindSet, bindGet, hk]
    · simp [bindSet, bindGet, hk, ih]

theorem bindGet_bindSet_ne {α : Type} (l : List (Str × α)) (n k : Str) (h : α)
    (hne : k ≠ n) : bindGet (bindSet l n h) k = bindGet l k := by
  induction l with
  | nil => simp [bindSet, bindGet, hne, Ne.symm hne]
  | cons kv t ih =>
    obtain ⟨k', v⟩ := kv
    by_cases hk : k' = n
    · subst hk
      simp [bindSet, bindGet, Ne.symm hne, hne]
    · by_cases hkk : k' = k
      · subst hkk
        simp [bindSet, bindGet, hk]
      · simp [bindSet, bindGet, hk, Ne.symm hkk, ih]

theorem countKey_cons {α : Type} (k : Str) (v : α) (t : List (Str × α)) (n : Str) :
    countKey ((k, v) :: t) n = (if k = n then 1 else 0) + countKey t n := by
  simp only [countKey, List.countP_cons]
  by_cases hk : k = n
  · simp [hk]
    omega
  · simp [hk]

theorem countKey_bindSet_eq_one {α : Type} (l : List (Str × α)) (n : Str) (h : α)
    (hle : countKey l n ≤ 1) : countKey (bindSet l n h) n = 1 := by
  induction l with
  | nil => simp [bindSet, countKey]
  | cons kv t ih =>
    obtain ⟨k, v⟩ := kv
    rw [countKey_cons] at hle
    by_cases hk : k = n
    · subst hk
      have ht : countKey t k = 0 := by
        simp at hle
        omega
      have hset : bindSet ((k, v) :: t) k h = (k, h) :: t := by simp [bindSet]
      rw [hset, countKey_cons, ht]
      simp
    · have hset : bindSet ((k, v) :: t) n h = (k, v) :: bindSet t n h := by
        simp [bindSet, hk]
      rw [hset, countKey_cons, if_neg hk, ih (by simpa [hk] using hle)]

/-! ## Projections of the bridge operations -/

theorem bind_func_bindings (st : WebWinState) (f : PyFunc) (bn : Str) (h : bn ≠ []) :
    (bind_func st f bn).bindings = bindSet st.bindings bn (bindWrapper f) := by
  simp [bind_func, _bind_func, _expose_func, h]

theorem bind_func_js (st : WebWinState) (f : PyFunc) (bn : Str) (h : bn ≠ []) :
    (bind_func st f bn).webwin_js = webwin_js_expose st.webwin_js (stubText f bn []) := by
  simp [bind_func, _bind_func, _expose_func, h]

/-! ## Claim C5 -/

/-- Claim C5: `commentOutScriptTag` is claimed to wrap every matching script
tag in a comment and leave non-matching portions untouched.  Evaluating
`comment_js_file` on a page with *two* tags loading `a.js` shows the code
instead splices the second comment at the second match's *original*
coordinates inside the already-lengthened page — nine characters to the
left of the actual second tag — mangling the first wrapped tag, instead of
producing the documented all-wrapped page. -/
theorem C5_comment_js_file_second_match_mangled :
    comment_js_file
        ("<html><script src=\"a.js\"></script>\n<script src=\"a.js\"></script></html>").data
        ("a.js").data
      = ("<html><!-- <script src=\"a.js\"></scr<!-- ipt> -->\n<script src=\"a.js\"> --></script></html>").data
  ∧ ("<html><!-- <script src=\"a.js\"></scr<!-- ipt> -->\n<script src=\"a.js\"> --></script></html>").data
      ≠ ("<html><!-- <script src=\"a.js\"></script> -->\n<!-- <script src=\"a.js\"></script> --></html>").data := by
  constructor
  · rfl
  · decide

/-! ## Claim C9 -/

/-- Claim C9 counterexample: `commentOutScriptTag` is *not* idempotent — on a
page whose only matching tag is already wrapped, a second application does
not return its input unchanged. -/
theorem C9_not_idempotent_cex :
    comment_js_file
        (comment_js_file ("<html><script src=\"a.js\"></script></html>").data ("a.js").data)
        ("a.js").data
      ≠ comment_js_file ("<html><script src=\"a.js\"></script></html>").data ("a.js").data := by
  decide

/-- Claim C9 amended: re-running `comment_js_file` on its own output wraps
the already-commented tag a second time (the surrounding comment markers do
not stop the pattern from re-matching the inner tag), producing a
double-wrapped tag rather than returning the input unchanged. -/
theorem C9_double_wrap :
    comment_js_file
        (comment_js_file ("<html><script src=\"a.js\"></script></html>").data ("a.js").data)
        ("a.js").data
      = ("<html><!-- <!-- <script src=\"a.js\"></script> --> --></html>").data := by
  rfl

/-! ## Claim C10 -/

/-- Claim C10: for every lowering function (hence for Python's `str.lower`,
including code points whose lowering changes the string length), whenever
the case-insensitive search finds the marker, `insert_str` returns a string
of length `len(html) + len(insert)` that is `html[:p] + insert + html[p:]`
for a single split position `p ≤ len(html)` of the original string; when the
search misses, it returns the input unchanged. -/
theorem C10_insert_str_splice (lower : Str → Str) (html ins whereS : Str)
    (forward before : Bool) :
    ((if forward then strFind (lower html) (lower whereS)
        else strRFind (lower html) (lower whereS)).isSome = true →
      (insert_str_gen lower html ins whereS forward before).length
          = html.length + ins.length
        ∧ ∃ p, p ≤ html.length ∧
            insert_str_gen lower html ins whereS forward before
              = html.take p ++ ins ++ html.drop p)
  ∧ ((if forward then strFind (lower html) (lower whereS)
        else strRFind (lower html) (lower whereS)) = none →
      insert_str_gen lower html ins whereS forward before = html) := by
  cases hfind : (if forward then strFind (lower html) (lower whereS)
      else strRFind (lower html) (lower whereS)) with
  | none =>
    constructor
    · intro hs
      simp at hs
    · intro _
      unfold insert_str_gen
      rw [hfind]
  | some p =>
    constructor
    · intro _
      have hres : insert_str_gen lower html ins whereS forward before
          = html.take (if before then p else p + whereS.length) ++ ins
            ++ html.drop (if before then p else p + whereS.length) := by
        unfold insert_str_gen
        rw [hfind]
      rw [hres]
      constructor
      · simp only [List.length_append, List.length_take, List.length_drop]
        omega
      · rcases le_or_lt (if before then p else p + whereS.length) html.length with hle | hlt
        · exact ⟨if before then p else p + whereS.length, hle, rfl⟩
        · refine ⟨html.length, Nat.le_refl _, ?_⟩
          rw [List.take_length, List.take_of_length_le (Nat.le_of_lt hlt),
            List.drop_length, List.drop_eq_nil_of_le (Nat.le_of_lt hlt)]
    · intro hnone
      exact Option.noConfusion hnone

/-- Claim C10 witness: the splice identity evaluated on a concrete page with
a backward, case-insensitive marker hit. -/
theorem C10_witness :
    (insert_str_gen lowerL ("ab</HTML>cd").data ("XY").data ("</html>").data false true).length
        = ("ab</HTML>cd").data.length + ("XY").data.length
  ∧ ∃ p, p ≤ ("ab</HTML>cd").data.length ∧
      insert_str_gen lowerL ("ab</HTML>cd").data ("XY").data ("</html>").data false true
        = ("ab</HTML>cd").data.take p ++ ("XY").data ++ ("ab</HTML>cd").data.drop p :=
  (C10_insert_str_splice lowerL ("ab</HTML>cd").data ("XY").data ("</html>").data
    false true).1 (by decide)

/-! ## Claim C6 -/

/-- Claim C6: `insert_str` searches for the marker case-insensitively — the
first occurrence when the direction is forward, the last when backward;
when the marker does not occur the input page is returned unchanged (a
silent no-op); when it occurs at `p`, the payload is spliced immediately
before the occurrence (`before = true`) or immediately after it
(`before = false`, position shifted by the marker's length). -/
theorem C6_insert_marker_search (html ins marker : Str) (forward before : Bool) :
    ((∀ q, q ≤ html.length → occAt (lowerL html) (lowerL marker) q = false) →
        insert_str html ins marker forward before = html)
  ∧ (∀ p, occAt (lowerL html) (lowerL marker) p = true →
        (∀ q, q < p → occAt (lowerL html) (lowerL marker) q = false) →
        insert_str html ins marker true before
          = html.take (if before then p else p + marker.length) ++ ins
            ++ html.drop (if before then p else p + marker.length))
  ∧ (∀ p, p ≤ html.length → occAt (lowerL html) (lowerL marker) p = true →
        (∀ q, q ≤ html.length → p < q → occAt (lowerL html) (lowerL marker) q = false) →
        insert_str html ins marker false before
          = html.take (if before then p else p + marker.length) ++ ins
            ++ html.drop (if before then p else p + marker.length)) := by
  refine ⟨?_, ?_, ?_⟩
  · intro h
    unfold insert_str insert_str_gen
    cases forward
    · rw [if_neg (by simp), strRFind_eq_none_of
        (by intro q hq; exact h q (by rwa [lowerL_length] at hq))]
    · rw [if_pos rfl, strFind_eq_none_of
        (by intro q hq; exact h q (by rwa [lowerL_length] at hq))]
  · intro p h1 h2
    unfold insert_str insert_str_gen
    rw [if_pos rfl, strFind_eq_some_of h1 h2]
  · intro p hp h1 h2
    unfold insert_str insert_str_gen
    rw [if_neg (by simp), strRFind_eq_some_of (by rwa [lowerL_length]) h1
      (fun q hq hqle => h2 q (by rwa [lowerL_length] at hqle) hq)]

/-- Claim C6 witness: on a page with two case-variant marker occurrences,
the backward search inserts at the last one, immediately before it. -/
theorem C6_witness :
    insert_str ("<p></HTML>x</html>").data ("IN").data ("</html>").data false true
      = ("<p></HTML>x</html>").data.take 11 ++ ("IN").data
        ++ ("<p></HTML>x</html>").data.drop 11 :=
  (C6_insert_marker_search ("<p></HTML>x</html>").data ("IN").data ("</html>").data
      false true).2.2 11 (by decide) (by decide) (by decide)

/-! ## Claim C1 -/

/-- Claim C1: dispatching a payload that decodes to the argument list `a`
(or the empty payload, decoded as the empty argument list) on a handler
bound to a callable that returns the serialisable value `v` yields the JSON
encoding of `{"status": "succ", "retval": v}`. -/
theorem C1_dispatch_succ (f : List Json → Except PyExn PyObj) (a : List Json)
    (payload : Str) (v : Json)
    (hp : (payload = [] ∧ a = []) ∨ json_loads payload = .ok (.arr a))
    (hf : f a = .ok (.json v)) :
    wrapper f payload = .ok (mkSucc v) := by
  rcases hp with ⟨hpay, ha⟩ | hload
  · subst hpay
    subst ha
    simp [wrapper, starArgs, hf]
  · have hpe : payload.isEmpty = false := by
      cases payload with
      | nil =>
        rw [show json_loads ([] : Str) = Except.error expectingValue from rfl] at hload
        exact Except.noConfusion hload
      | cons c t => rfl
    simp [wrapper, hpe, hload, starArgs, hf]

/-- Claim C1 witness: the end-to-end success scenario — a list-reversing
callable invoked with payload `"[1, 2]"` answers with the encoded `succ`
envelope carrying `[2, 1]`. -/
theorem C1_witness :
    wrapper (fun l => .ok (.json (.arr l.reverse))) ("[1, 2]").data
      = .ok (mkSucc (.arr [.num 2, .num 1])) :=
  C1_dispatch_succ (fun l => .ok (.json (.arr l.reverse))) [.num 1, .num 2]
    ("[1, 2]").data (.arr [.num 2, .num 1]) (Or.inr rfl) rfl

/-! ## Claim C2 -/

theorem pyRepr_ne_nil (e : PyExn) : pyRepr e ≠ [] := by
  simp [pyRepr]

/-- Claim C2 counterexample: dispatch *does* let an exception escape — on
the malformed payload `"x"`, `json.loads` raises outside the `try` block of
the handler, so the decode error propagates instead of being returned as a
`fail` response. -/
theorem C2_decode_error_escapes_cex :
    wrapper (fun _ => .ok (.json .null)) ("x").data
      = .error expectingValue := rfl

/-- Claim C2 amended: exceptions raised *inside* the handler's `try` block —
the callable raising, star-unpacking a non-list decoded payload, and a
return value `json.dumps` cannot encode — are caught and turned into a
returned `fail` response whose `msg` (built from `repr` of the exception) is
non-empty; but a payload on which `json.loads` itself raises escapes the
handler, because the decode happens before the `try` block. -/
theorem C2_call_and_encode_errors_caught (f : List Json → Except PyExn PyObj)
    (payload : Str) (v : Json)
    (hv : (payload = [] ∧ v = Json.arr []) ∨ json_loads payload = .ok v)
    (hf : ∀ l j, starArgs v = .ok l → f l ≠ .ok (.json j)) :
    ∃ m, wrapper f payload = .ok (mkFail m) ∧ m ≠ [] := by
  have hred : wrapper f payload
      = .ok (match starArgs v with
          | .error e => mkFail (pyRepr e)
          | .ok l =>
            match f l with
            | .error e => mkFail (pyRepr e)
            | .ok (.json w) => mkSucc w
            | .ok (.raw tyname) =>
              mkFail (pyRepr ⟨"TypeError".data,
                "Object of type ".data ++ tyname ++ " is not JSON serializable".data⟩)) := by
    rcases hv with ⟨hpay, hval⟩ | hload
    · subst hpay
      subst hval
      rfl
    · have hpe : payload.isEmpty = false := by
        cases payload with
        | nil =>
          rw [show json_loads ([] : Str) = Except.error expectingValue from rfl] at hload
          exact Except.noConfusion hload
        | cons c t => rfl
      simp [wrapper, hpe, hload]
  cases hs : starArgs v with
  | error e =>
    refine ⟨pyRepr e, ?_, pyRepr_ne_nil e⟩
    rw [hred, hs]
  | ok l =>
    have hred2 : wrapper f payload
        = .ok (match f l with
            | .error e => mkFail (pyRepr e)
            | .ok (.json w) => mkSucc w
            | .ok (.raw tyname) =>
              mkFail (pyRepr ⟨"TypeError".data,
                "Object of type ".data ++ tyname ++ " is not JSON serializable".data⟩)) := by
      rw [hred, hs]
    cases hfl : f l with
    | error e =>
      refine ⟨pyRepr e, ?_, pyRepr_ne_nil e⟩
      rw [hred2, hfl]
    | ok o =>
      cases o with
      | json w => exact absurd hfl (hf l w hs)
      | raw tyname =>
        refine ⟨pyRepr ⟨"TypeError".data,
          "Object of type ".data ++ tyname ++ " is not JSON serializable".data⟩,
          ?_, pyRepr_ne_nil _⟩
        rw [hred2, hfl]

/-- Claim C2 witness: a raising callable on a well-formed payload yields a
`fail` envelope with a non-empty message. -/
theorem C2_witness :
    ∃ m, wrapper (fun _ => .error ⟨("ValueError").data, ("boom").data⟩) ("[1]").data
        = .ok (mkFail m) ∧ m ≠ [] :=
  C2_call_and_encode_errors_caught
    (fun _ => .error ⟨("ValueError").data, ("boom").data⟩)
    ("[1]").data (.arr [.num 1]) (Or.inr rfl)
    (fun _ _ _ hcall => Except.noConfusion hcall)

/-! ## Claim C3 -/

/-- Claim C3: exposing a second callable under the same non-empty name
replaces the previous handler binding (last-writer-wins): afterwards the
channel table holds exactly one binding for the name, lookups return the
second callable's wrapper only, and dispatching through the table invokes
the second callable's wrapper.  (The channel `bind` table is modelled from
the spec's collaborator contract; the `webui` library is outside this
repository.) -/
theorem C3_rebind_last_writer_wins (st : WebWinState) (f g : PyFunc)
    (n payload : Str) (hn : n ≠ []) (h1 : countKey st.bindings n ≤ 1) :
    bindGet (bind_func (bind_func st f n) g n).bindings n = some (bindWrapper g)
  ∧ countKey (bind_func (bind_func st f n) g n).bindings n = 1
  ∧ (bindGet (bind_func (bind_func st f n) g n).bindings n).map (fun h => h payload)
      = some (bindWrapper g payload) := by
  have hb : (bind_func (bind_func st f n) g n).bindings
      = bindSet (bindSet st.bindings n (bindWrapper f)) n (bindWrapper g) := by
    rw [bind_func_bindings _ _ _ hn, bind_func_bindings _ _ _ hn]
  refine ⟨?_, ?_, ?_⟩
  · rw [hb, bindGet_bindSet_self]
  · rw [hb]
    exact countKey_bindSet_eq_one _ _ _
      (le_of_eq (countKey_bindSet_eq_one _ _ _ h1))
  · rw [hb, bindGet_bindSet_self]
    rfl

/-- Claim C3 witness: rebinding `"h"` on a fresh bridge makes lookups see
only the second callable's wrapper, with exactly one entry. -/
theorem C3_witness :
    bindGet (bind_func (bind_func initWebWin
        ⟨("f").data, none, fun _ => .ok (.json (.num 1))⟩ ("h").data)
        ⟨("g").data, none, fun _ => .ok (.json (.num 2))⟩ ("h").data).bindings ("h").data
      = some (bindWrapper ⟨("g").data, none, fun _ => .ok (.json (.num 2))⟩)
  ∧ countKey (bind_func (bind_func initWebWin
        ⟨("f").data, none, fun _ => .ok (.json (.num 1))⟩ ("h").data)
        ⟨("g").data, none, fun _ => .ok (.json (.num 2))⟩ ("h").data).bindings ("h").data = 1
  ∧ (bindGet (bind_func (bind_func initWebWin
        ⟨("f").data, none, fun _ => .ok (.json (.num 1))⟩ ("h").data)
        ⟨("g").data, none, fun _ => .ok (.json (.num 2))⟩ ("h").data).bindings ("h").data).map
        (fun h => h ("[]").data)
      = some (bindWrapper ⟨("g").data, none, fun _ => .ok (.json (.num 2))⟩ ("[]").data) :=
  C3_rebind_last_writer_wins initWebWin
    ⟨("f").data, none, fun _ => .ok (.json (.num 1))⟩
    ⟨("g").data, none, fun _ => .ok (.json (.num 2))⟩
    ("h").data ("[]").data (by decide) (by decide)

/-! ## Claim C7 -/

theorem toLower_newline : Char.toLower '\n' = '\n' := rfl

/-- A buffer whose prefix ends at the marker, with marker-free prefix and
tail, contains the marker exactly once. -/
theorem countOcc_marker_buffer0 (A T₀ : Str)
    (hA : countOcc A markerL = 0) (hT : countOcc T₀ markerL = 0) :
    countOcc (A ++ '\n' :: (markerL ++ '\n' :: T₀)) markerL = 1 := by
  rw [countOcc_append_cons '\n' A _ markerL_ne_nil newline_not_mem_markerL, hA,
    countOcc_cons_of_ne_head _ markerL_ne_nil markerL_head,
    countOcc_append_cons '\n' markerL _ markerL_ne_nil newline_not_mem_markerL,
    countOcc_self markerL_ne_nil,
    countOcc_cons_of_ne_head _ markerL_ne_nil markerL_head, hT]

set_option maxRecDepth 40000 in
/-- Claim C7 counterexample: the marker is *not* always unique after an
exposure.  On the freshly initialised bridge the stub buffer holds the
marker exactly once, but exposing a function whose docstring contains the
marker text duplicates it: the buffer then holds two (case-insensitive)
marker occurrences. -/
theorem C7_marker_duplicated_cex :
    countOcc (lowerL initWebWin.webwin_js) markerL = 1
  ∧ countOcc (lowerL (bind_func initWebWin
      ⟨("evil").data, some ("see /*_WEBWIN_EXPOSE_END_*/ here").data,
        fun _ => .ok (.json .null)⟩ ("evil").data).webwin_js) markerL = 2 := by
  exact ⟨rfl, rfl⟩

/-- Claim C7 amended: provided the inserted stub text does not itself
contain the marker (case-insensitively), every exposure preserves the
stub-buffer invariant: on a buffer holding the marker exactly once — laid
out as newline-terminated content, the marker, then the fixed
newline-headed, marker-free tail — the insertion is spliced immediately
before the marker, the marker is neither consumed nor duplicated (the new
buffer again holds it exactly once), and the tail after the marker is
untouched, so further appends remain possible. -/
theorem C7_marker_invariant (B₀ Mstr T₀ s : Str)
    (hm : lowerL Mstr = markerL)
    (hB : countOcc (lowerL B₀) markerL = 0)
    (hT : countOcc (lowerL T₀) markerL = 0)
    (hs : countOcc (lowerL s) markerL = 0) :
    webwin_js_expose ((B₀ ++ ['\n']) ++ Mstr ++ '\n' :: T₀) s
        = (B₀ ++ ['\n']) ++ (s ++ ['\n']) ++ Mstr ++ '\n' :: T₀
  ∧ countOcc (lowerL ((B₀ ++ ['\n']) ++ Mstr ++ '\n' :: T₀)) markerL = 1
  ∧ countOcc (lowerL ((B₀ ++ ['\n']) ++ (s ++ ['\n']) ++ Mstr ++ '\n' :: T₀)) markerL = 1 := by
  refine ⟨expose_at_marker _ _ _ _ hm hT, ?_, ?_⟩
  · have hshape : lowerL ((B₀ ++ ['\n']) ++ Mstr ++ '\n' :: T₀)
        = lowerL B₀ ++ '\n' :: (markerL ++ '\n' :: lowerL T₀) := by
      rw [lowerL_append, lowerL_append, hm, lowerL_cons, toLower_newline,
        lowerL_append, show lowerL ['\n'] = ['\n'] from rfl]
      simp [List.append_assoc]
    rw [hshape]
    exact countOcc_marker_buffer0 _ _ hB hT
  · have hshape : lowerL ((B₀ ++ ['\n']) ++ (s ++ ['\n']) ++ Mstr ++ '\n' :: T₀)
        = lowerL B₀ ++ '\n' :: (lowerL s ++ '\n' :: (markerL ++ '\n' :: lowerL T₀)) := by
      rw [lowerL_append, lowerL_append, lowerL_append, hm, lowerL_cons, toLower_newline,
        lowerL_append, lowerL_append, show lowerL ['\n'] = ['\n'] from rfl]
      simp [List.append_assoc]
    rw [hshape]
    exact countOcc_marker_buffer _ _ _ hB hs hT

/-- Claim C7 witness: a marker-free stub inserted into a concrete invariant
buffer lands before the marker and keeps the occurrence count at one. -/
theorem C7_witness :
    webwin_js_expose ((("pre").data ++ ['\n']) ++ WEBEIN_JS_EXPOSE_END ++ '\n' :: ("tail").data)
        ("stub").data
        = (("pre").data ++ ['\n']) ++ (("stub").data ++ ['\n'])
          ++ WEBEIN_JS_EXPOSE_END ++ '\n' :: ("tail").data
  ∧ countOcc (lowerL ((("pre").data ++ ['\n']) ++ WEBEIN_JS_EXPOSE_END ++ '\n' :: ("tail").data))
      markerL = 1
  ∧ countOcc (lowerL ((("pre").data ++ ['\n']) ++ (("stub").data ++ ['\n'])
      ++ WEBEIN_JS_EXPOSE_END ++ '\n' :: ("tail").data)) markerL = 1 :=
  C7_marker_invariant ("pre").data WEBEIN_JS_EXPOSE_END ("tail").data ("stub").data
    rfl (by decide) (by decide) (by decide)

/-! ## Claim C8 -/

theorem fold_members_js (ms : List (Str × PyFunc)) (bn : Str) (s : WebWinState) :
    (ms.foldl (fun s m =>
        _expose_func (_bind_func s m.2 (bn ++ '.' :: m.1)) m.2 (bn ++ '.' :: m.1) m.1) s).webwin_js
      = ms.foldl (fun b m => webwin_js_expose b (stubText m.2 (bn ++ '.' :: m.1) m.1))
          s.webwin_js := by
  induction ms generalizing s with
  | nil => rfl
  | cons m rest ih =>
    rw [List.foldl_cons, List.foldl_cons, ih]
    rfl

/-- The stub buffer after `bind_object`: the namespace header, one stub per
public method in member order, and the closing brace, each fed through
`_webwin_js_expose` in sequence. -/
theorem bind_object_js (st : WebWinState) (obj : PyObject) (bn : Str) (hbn : bn ≠ []) :
    (bind_object st obj bn).webwin_js
      = List.foldl webwin_js_expose st.webwin_js
          ((bn ++ (": \x7b").data)
            :: ((pubMethods obj).map (fun m => stubText m.2 (bn ++ '.' :: m.1) m.1))
            ++ [("\x7d,").data]) := by
  have hL : (bind_object st obj bn).webwin_js
      = webwin_js_expose
          (((pubMethods obj).foldl (fun s m =>
              _expose_func (_bind_func s m.2 (bn ++ '.' :: m.1)) m.2 (bn ++ '.' :: m.1) m.1)
            { st with webwin_js := webwin_js_expose st.webwin_js (bn ++ (": \x7b").data) }).webwin_js)
          (("\x7d,").data) := by
    simp only [bind_object, if_neg hbn]
  rw [hL, fold_members_js, List.foldl_append, List.foldl_cons, List.foldl_cons,
    List.foldl_nil, List.foldl_map]

/-- Claim C8: stub declarations and namespace blocks land in the buffer in
exactly exposure order; nothing already in the buffer is removed, so
re-exposing a name (`n1 = n2` is allowed) appends a second stub while the
first stays; and an object's namespace block consists of exactly the
header, the stubs of the methods exposed under that alias in member order,
and the closing brace. -/
theorem C8_stub_order_and_blocks (st : WebWinState) (B Mstr T₀ : Str)
    (f1 f2 : PyFunc) (n1 n2 : Str) (obj : PyObject) (bn : Str)
    (hjs : st.webwin_js = B ++ Mstr ++ '\n' :: T₀)
    (hm : lowerL Mstr = markerL) (hT : countOcc (lowerL T₀) markerL = 0)
    (hn1 : n1 ≠ []) (hn2 : n2 ≠ []) (hbn : bn ≠ []) :
    (bind_func (bind_func st f1 n1) f2 n2).webwin_js
        = B ++ (stubText f1 n1 [] ++ ['\n']) ++ (stubText f2 n2 [] ++ ['\n'])
          ++ Mstr ++ '\n' :: T₀
  ∧ (bind_object st obj bn).webwin_js
        = B ++ joinNl ((bn ++ (": \x7b").data)
            :: ((pubMethods obj).map (fun m => stubText m.2 (bn ++ '.' :: m.1) m.1))
            ++ [("\x7d,").data]) ++ Mstr ++ '\n' :: T₀ := by
  constructor
  · rw [bind_func_js _ _ _ hn2, bind_func_js _ _ _ hn1, hjs,
      expose_at_marker _ _ _ _ hm hT,
      expose_at_marker (B ++ (stubText f1 n1 [] ++ ['\n'])) Mstr T₀ _ hm hT]
  · rw [bind_object_js st obj bn hbn, hjs]
    exact expose_foldl _ B Mstr T₀ hm hT

/-- Claim C8 witness: on a concrete invariant buffer, re-exposing the same
name appends both stubs in order, and a one-method object yields exactly
its header/stub/footer block. -/
theorem C8_witness :
    (bind_func (bind_func (⟨[], ("p\n").data ++ WEBEIN_JS_EXPOSE_END ++ '\n' :: ("t").data⟩ : WebWinState)
        ⟨("f1").data, none, fun _ => .ok (.json (.num 1))⟩ ("dup").data)
        ⟨("f2").data, none, fun _ => .ok (.json (.num 2))⟩ ("dup").data).webwin_js
        = ("p\n").data
          ++ (stubText ⟨("f1").data, none, fun _ => .ok (.json (.num 1))⟩ ("dup").data [] ++ ['\n'])
          ++ (stubText ⟨("f2").data, none, fun _ => .ok (.json (.num 2))⟩ ("dup").data [] ++ ['\n'])
          ++ WEBEIN_JS_EXPOSE_END ++ '\n' :: ("t").data
  ∧ (bind_object (⟨[], ("p\n").data ++ WEBEIN_JS_EXPOSE_END ++ '\n' :: ("t").data⟩ : WebWinState)
        ⟨("W").data, [(("hello").data, .method ⟨("hello").data, none, fun _ => .ok (.json .null)⟩)]⟩
        ("world").data).webwin_js
        = ("p\n").data
          ++ joinNl ((("world").data ++ (": \x7b").data)
              :: ((pubMethods ⟨("W").data,
                    [(("hello").data, .method ⟨("hello").data, none, fun _ => .ok (.json .null)⟩)]⟩).map
                  (fun m => stubText m.2 (("world").data ++ '.' :: m.1) m.1))
              ++ [("\x7d,").data])
          ++ WEBEIN_JS_EXPOSE_END ++ '\n' :: ("t").data :=
  C8_stub_order_and_blocks
    ⟨[], ("p\n").data ++ WEBEIN_JS_EXPOSE_END ++ '\n' :: ("t").data⟩
    ("p\n").data WEBEIN_JS_EXPOSE_END ("t").data
    ⟨("f1").data, none, fun _ => .ok (.json (.num 1))⟩
    ⟨("f2").data, none, fun _ => .ok (.json (.num 2))⟩
    ("dup").data ("dup").data
    ⟨("W").data, [(("hello").data, .method ⟨("hello").data, none, fun _ => .ok (.json .null)⟩)]⟩
    ("world").data
    rfl rfl (by decide) (by decide) (by decide) (by decide)

/-! ## Claim C4 -/

theorem bindKey_inj {bn a b : Str} (h : bn ++ '.' :: a = bn ++ '.' :: b) : a = b := by
  have h2 := List.append_cancel_left h
  injection h2

theorem map_fst_filterMap_sublist (g : Str × PyAttr → Option (Str × PyFunc))
    (hg : ∀ p q, g p = some q → q.1 = p.1) (l : List (Str × PyAttr)) :
    ((l.filterMap g).map Prod.fst).Sublist (l.map Prod.fst) := by
  induction l with
  | nil => simp
  | cons p rest ih =>
    rw [List.filterMap_cons]
    cases hp : g p with
    | none =>
      rw [List.map_cons]
      exact List.Sublist.cons _ ih
    | some q =>
      rw [List.map_cons, List.map_cons, hg p q hp]
      exact List.Sublist.cons₂ _ ih

theorem pubMethods_names_nodup (obj : PyObject) (h : (obj.attrs.map Prod.fst).Nodup) :
    ((pubMethods obj).map Prod.fst).Nodup := by
  have hperm : (List.insertionSort (fun p q : Str × PyAttr => strLe p.1 q.1 = true)
      obj.attrs).Perm obj.attrs := List.perm_insertionSort _ _
  have hnd : ((List.insertionSort (fun p q : Str × PyAttr => strLe p.1 q.1 = true)
      obj.attrs).map Prod.fst).Nodup := ((hperm.map Prod.fst).nodup_iff).mpr h
  exact (map_fst_filterMap_sublist _
    (fun p q hpq => by
      cases hattr : p.2 with
      | method f =>
        rw [hattr] at hpq
        by_cases hu : ['_'].isPrefixOf f.name
        · simp [hu] at hpq
        · simp [hu] at hpq
          rw [← hpq]
      | callableAttr f => rw [hattr] at hpq; exact Option.noConfusion hpq
      | plain => rw [hattr] at hpq; exact Option.noConfusion hpq)
    _).nodup hnd

theorem fold_members_bindings (ms : List (Str × PyFunc)) (bn : Str) (s : WebWinState) :
    (ms.foldl (fun s m =>
        _expose_func (_bind_func s m.2 (bn ++ '.' :: m.1)) m.2 (bn ++ '.' :: m.1) m.1) s).bindings
      = ms.foldl (fun bs m => bindSet bs (bn ++ '.' :: m.1) (bindWrapper m.2)) s.bindings := by
  induction ms generalizing s with
  | nil => rfl
  | cons m rest ih =>
    rw [List.foldl_cons, List.foldl_cons, ih]
    rfl

theorem bind_object_bindings (st : WebWinState) (obj : PyObject) (bn : Str) (hbn : bn ≠ []) :
    (bind_object st obj bn).bindings
      = (pubMethods obj).foldl (fun bs m => bindSet bs (bn ++ '.' :: m.1) (bindWrapper m.2))
          st.bindings := by
  simp only [bind_object, if_neg hbn]
  rw [fold_members_bindings]

theorem fold_bindSet_get_notmem (ms : List (Str × PyFunc)) (bn k : Str)
    (bs : List (Str × (Str → Except PyExn Str)))
    (h : ∀ m ∈ ms, bn ++ '.' :: m.1 ≠ k) :
    bindGet (ms.foldl (fun bs m => bindSet bs (bn ++ '.' :: m.1) (bindWrapper m.2)) bs) k
      = bindGet bs k := by
  induction ms generalizing bs with
  | nil => rfl
  | cons m rest ih =>
    rw [List.foldl_cons, ih _ (fun m' hm' => h m' (List.mem_cons_of_mem _ hm')),
      bindGet_bindSet_ne _ _ _ _ (fun he => h m (List.mem_cons_self m rest) he.symm)]

theorem fold_bindSet_get_mem (ms : List (Str × PyFunc)) (bn a : Str) (f : PyFunc)
    (bs : List (Str × (Str → Except PyExn Str)))
    (hmem : (a, f) ∈ ms) (hnd : (ms.map Prod.fst).Nodup) :
    bindGet (ms.foldl (fun bs m => bindSet bs (bn ++ '.' :: m.1) (bindWrapper m.2)) bs)
      (bn ++ '.' :: a) = some (bindWrapper f) := by
  induction ms generalizing bs with
  | nil => cases hmem
  | cons m rest ih =>
    rw [List.foldl_cons]
    rw [List.map_cons, List.nodup_cons] at hnd
    rcases List.mem_cons.mp hmem with heq | hrest
    · subst heq
      have hnotin : ∀ m' ∈ rest, bn ++ '.' :: m'.1 ≠ bn ++ '.' :: a := by
        intro m' hm' he
        have hmm : m'.1 ∈ List.map Prod.fst rest := List.mem_map_of_mem Prod.fst hm'
        exact hnd.1 (bindKey_inj he ▸ hmm)
      rw [fold_bindSet_get_notmem rest bn _ _ hnotin, bindGet_bindSet_self]
    · exact ih _ hrest hnd.2

/-- Claim C4 counterexample: a public *callable attribute* that is not a
bound method is claimed to be exposed under `<alias>.<name>`, but
`bind_object` (which filters with `inspect.ismethod`) binds nothing for it:
the lookup of `c.pub` after exposing an instance of class `C` carrying the
public callable attribute `pub` comes back empty. -/
theorem C4_callable_attr_unexposed_cex :
    bindGet (bind_object initWebWin
        ⟨("C").data, [(("pub").data,
          .callableAttr ⟨("pub").data, none, fun _ => .ok (.json .null)⟩)]⟩ []).bindings
      (("c.pub").data) = none := rfl

/-- Claim C4 amended: exposing an instance exposes exactly its *bound
methods* (`inspect.ismethod`) whose function `__name__` does not begin with
an underscore — other callable attributes are skipped — each bound under
`<alias>.<attrName>`; every other binding is untouched; the alias defaults
to the lower-cased simple class name when omitted; and an instance with no
such methods leaves the binding table unchanged and emits an empty
namespace block into the stub buffer without error. -/
theorem C4_expose_object (st : WebWinState) (obj : PyObject) (bn B Mstr T₀ : Str)
    (hbn : bn ≠ []) (hnd : (obj.attrs.map Prod.fst).Nodup)
    (hjs : st.webwin_js = B ++ Mstr ++ '\n' :: T₀)
    (hm : lowerL Mstr = markerL) (hT : countOcc (lowerL T₀) markerL = 0) :
    (∀ a f, (a, f) ∈ pubMethods obj →
        bindGet (bind_object st obj bn).bindings (bn ++ '.' :: a) = some (bindWrapper f))
  ∧ (∀ k, (∀ a f, (a, f) ∈ pubMethods obj → bn ++ '.' :: a ≠ k) →
        bindGet (bind_object st obj bn).bindings k = bindGet st.bindings k)
  ∧ bind_object st obj [] = bind_object st obj (lowerL obj.className)
  ∧ (pubMethods obj = [] →
        (bind_object st obj bn).bindings = st.bindings
      ∧ (bind_object st obj bn).webwin_js
          = B ++ joinNl [bn ++ (": \x7b").data, ("\x7d,").data] ++ Mstr ++ '\n' :: T₀) := by
  refine ⟨?_, ?_, ?_, ?_⟩
  · intro a f hmem
    rw [bind_object_bindings _ _ _ hbn]
    exact fold_bindSet_get_mem _ _ _ _ _ hmem (pubMethods_names_nodup obj hnd)
  · intro k hk
    rw [bind_object_bindings _ _ _ hbn]
    exact fold_bindSet_get_notmem _ _ _ _ (fun m hm => hk m.1 m.2 hm)
  · simp [bind_object]
  · intro hemp
    constructor
    · rw [bind_object_bindings _ _ _ hbn, hemp, List.foldl_nil]
    · rw [bind_object_js st obj bn hbn, hemp, hjs]
      exact expose_foldl _ B Mstr T₀ hm hT

/-- Claim C4 witness: a two-attribute instance — one public bound method,
one underscore-named one — exposes exactly the public method under the
given alias, and the alias defaults to the lower-cased class name. -/
theorem C4_witness :
    (∀ a f, (a, f) ∈ pubMethods
          ⟨("W").data, [(("hello").data, .method ⟨("hello").data, none, fun _ => .ok (.json .null)⟩),
            (("_hid").data, .method ⟨("_hid").data, none, fun _ => .ok (.json .null)⟩)]⟩ →
        bindGet (bind_object (⟨[], ("p\n").data ++ WEBEIN_JS_EXPOSE_END ++ '\n' :: ("t").data⟩ : WebWinState)
            ⟨("W").data, [(("hello").data, .method ⟨("hello").data, none, fun _ => .ok (.json .null)⟩),
              (("_hid").data, .method ⟨("_hid").data, none, fun _ => .ok (.json .null)⟩)]⟩
            (("w").data)).bindings (("w").data ++ '.' :: a) = some (bindWrapper f))
  ∧ (∀ k, (∀ a f, (a, f) ∈ pubMethods
          ⟨("W").data, [(("hello").data, .method ⟨("hello").data, none, fun _ => .ok (.json .null)⟩),
            (("_hid").data, .method ⟨("_hid").data, none, fun _ => .ok (.json .null)⟩)]⟩ →
          ("w").data ++ '.' :: a ≠ k) →
        bindGet (bind_object (⟨[], ("p\n").data ++ WEBEIN_JS_EXPOSE_END ++ '\n' :: ("t").data⟩ : WebWinState)
            ⟨("W").data, [(("hello").data, .method ⟨("hello").data, none, fun _ => .ok (.json .null)⟩),
              (("_hid").data, .method ⟨("_hid").data, none, fun _ => .ok (.json .null)⟩)]⟩
            (("w").data)).bindings k
          = bindGet (⟨[], ("p\n").data ++ WEBEIN_JS_EXPOSE_END ++ '\n' :: ("t").data⟩ : WebWinState).bindings k)
  ∧ bind_object (⟨[], ("p\n").data ++ WEBEIN_JS_EXPOSE_END ++ '\n' :: ("t").data⟩ : WebWinState)
        ⟨("W").data, [(("hello").data, .method ⟨("hello").data, none, fun _ => .ok (.json .null)⟩),
          (("_hid").data, .method ⟨("_hid").data, none, fun _ => .ok (.json .null)⟩)]⟩ []
      = bind_object (⟨[], ("p\n").data ++ WEBEIN_JS_EXPOSE_END ++ '\n' :: ("t").data⟩ : WebWinState)
        ⟨("W").data, [(("hello").data, .method ⟨("hello").data, none, fun _ => .ok (.json .null)⟩),
          (("_hid").data, .method ⟨("_hid").data, none, fun _ => .ok (.json .null)⟩)]⟩
        (lowerL ("W").data)
  ∧ (pubMethods ⟨("W").data, [(("hello").data, .method ⟨("hello").data, none, fun _ => .ok (.json .null)⟩),
        (("_hid").data, .method ⟨("_hid").data, none, fun _ => .ok (.json .null)⟩)]⟩ = [] →
        (bind_object (⟨[], ("p\n").data ++ WEBEIN_JS_EXPOSE_END ++ '\n' :: ("t").data⟩ : WebWinState)
            ⟨("W").data, [(("hello").data, .method ⟨("hello").data, none, fun _ => .ok (.json .null)⟩),
              (("_hid").data, .method ⟨("_hid").data, none, fun _ => .ok (.json .null)⟩)]⟩
            (("w").data)).bindings
          = (⟨[], ("p\n").data ++ WEBEIN_JS_EXPOSE_END ++ '\n' :: ("t").data⟩ : WebWinState).bindings
      ∧ (bind_object (⟨[], ("p\n").data ++ WEBEIN_JS_EXPOSE_END ++ '\n' :: ("t").data⟩ : WebWinState)
            ⟨("W").data, [(("hello").data, .method ⟨("hello").data, none, fun _ => .ok (.json .null)⟩),
              (("_hid").data, .method ⟨("_hid").data, none, fun _ => .ok (.json .null)⟩)]⟩
            (("w").data)).webwin_js
          = ("p\n").data ++ joinNl [("w").data ++ (": \x7b").data, ("\x7d,").data]
            ++ WEBEIN_JS_EXPOSE_END ++ '\n' :: ("t").data) :=
  C4_expose_object
    ⟨[], ("p\n").data ++ WEBEIN_JS_EXPOSE_END ++ '\n' :: ("t").data⟩
    ⟨("W").data, [(("hello").data, .method ⟨("hello").data, none, fun _ => .ok (.json .null)⟩),
      (("_hid").data, .method ⟨("_hid").data, none, fun _ => .ok (.json .null)⟩)]⟩
    (("w").data) ("p\n").data WEBEIN_JS_EXPOSE_END ("t").data
    (by decide) (by decide) rfl rfl (by decide)
